import Mathlib

/-!
Verification of the go-spacemesh ATX `Builder` (activation package) against its
natural-language specification.  The Go source (`activation/activation.go`,
here `src/unnamed/part_002`) is shallowly embedded: machine integers become
`Nat`/`Int`, `time.Time`/`time.Duration` become `Int` (nanoseconds), fallible
calls return three-valued `SqlRes` or `Except`, the SQLite-backed stores become
explicit state, and external collaborators (clock, syncer, prover, validator,
publisher) become oracle fields of an environment record.
-/

namespace Spacemesh

/-- Result of a Go call returning `(value, error)` where the error is compared
against `sql.ErrNotFound`: success, not-found, or any other error. -/
inductive SqlRes (α : Type) : Type
  | ok (a : α)
  | notFound
  | fail
  deriving Repr, DecidableEq

/-- `types.Post` — the space-proof fields carried inside a challenge. -/
structure Post where
  nonce : Nat
  indices : List Nat
  pow : Nat
  deriving Repr, DecidableEq

/-- `nipost.Post` — the persisted initial post record
(fields used by the builder in `part_002`). -/
structure InitialPost where
  nonce : Nat
  indices : List Nat
  pow : Nat
  numUnits : Nat
  commitmentATX : Nat
  vrfNonce : Nat
  deriving Repr, DecidableEq

/-- `types.EmptyATXID` — the zero-filled sentinel ATX id. -/
def EmptyATXID : Nat := 0

/-- `types.NIPostChallenge`. ATX ids are abstracted to `Nat`
(with `EmptyATXID = 0` as the empty sentinel). -/
structure NIPostChallenge where
  publishEpoch : Nat
  sequence : Nat
  prevATXID : Nat
  positioningATX : Nat
  commitmentATX : Option Nat
  initialPost : Option Post
  deriving Repr, DecidableEq

/-- The fields of the last ATX of an identity that
`Builder.BuildNIPostChallenge` reads from `cdb.GetLastAtx`. -/
structure LastAtx where
  id : Nat
  publishEpoch : Nat
  sequence : Nat
  deriving Repr, DecidableEq

/-- `nipost.NIPostState` — output of `nipostBuilder.BuildNIPost` used by
`createAtx` (the proof blob itself is abstract). -/
structure NIPostState where
  vrfNonce : Nat
  nipost : Nat
  numUnits : Nat
  deriving Repr, DecidableEq

/-- `types.ActivationTx` as assembled by `createAtx`:
challenge + coinbase + proof + optional VRF nonce + signature fields. -/
structure ActivationTx where
  challenge : NIPostChallenge
  coinbase : Nat
  nipost : Nat
  numUnits : Nat
  vrfNonce : Option Nat
  nodeID : Option Nat
  smesherID : Nat
  signature : Nat
  deriving Repr, DecidableEq

namespace nipost

/-- Modelled from the spec: the implementation of the `sql/localsql/nipost`
challenge store is not under `src/` (only its tests are).  Per the spec,
"Exactly one challenge may be persisted per identity at a time" and
"attempting to add a second Challenge for an identity that already has one
fails without side effects".  The store is a keyed table from node id to
challenge. -/
def AddChallenge (db : Nat → Option NIPostChallenge) (nodeID : Nat)
    (ch : NIPostChallenge) : Except Unit (Nat → Option NIPostChallenge) :=
  match db nodeID with
  | some _ => .error ()
  | none => .ok (fun x => if x = nodeID then some ch else db x)

/-- Modelled from the spec: `nipost.Challenge` reads the persisted challenge
of an identity (not-found when absent). -/
def Challenge (db : Nat → Option NIPostChallenge) (nodeID : Nat) :
    Option NIPostChallenge :=
  db nodeID

/-- Modelled from the spec: `nipost.RemoveChallenge` deletes the persisted
challenge of an identity. -/
def RemoveChallenge (db : Nat → Option NIPostChallenge) (nodeID : Nat) :
    Nat → Option NIPostChallenge :=
  fun x => if x = nodeID then none else db x

end nipost

/-- The configuration fields of `Builder` used by the modelled paths:
`conf.GoldenATXID`, the layers-per-epoch constant behind
`EpochID.FirstLayer`, and `poetCfg.PhaseShift` / `poetCfg.GracePeriod`
(durations in nanoseconds, as `Int`). -/
structure Cfg where
  goldenATXID : Nat
  layersPerEpoch : Nat
  phaseShift : Int
  gracePeriod : Int
  deriving Repr, DecidableEq

/-- External collaborators of `Builder.BuildNIPostChallenge` for one identity,
frozen for one call: the clock, the sync gate, the database reads, the
randomness source, and the success/failure of each fallible side effect. -/
structure Env where
  /-- `ctx.Done()` fires before `syncer.RegisterForATXSynced()` delivers. -/
  syncCtxDone : Bool
  /-- `layerClock.CurrentLayer().GetEpoch()` at the top of the call. -/
  currentEpoch : Nat
  /-- Result of `cdb.GetLastAtx(nodeID)`. -/
  getLastAtx : SqlRes LastAtx
  /-- `layerClock.LayerToTime` (nanoseconds). -/
  layerToTime : Nat → Int
  /-- `time.Now()` during the call (time does not advance inside one call). -/
  now : Int
  /-- Randomness source consumed by `randomDurationInRange`. -/
  rand : Int
  /-- `ctx.Done()` fires during the jittered pre-round wait. -/
  waitCtxDone : Bool
  /-- The ATX candidates `(id, tick height)` visible to
  `atxs.GetIDWithMaxHeight`. -/
  atxCandidates : List (Nat × Nat)
  /-- Whether `validator.VerifyChain` succeeds for a candidate id. -/
  verifyChainOk : Nat → Bool
  /-- `ctx.Done()` fires at iteration `i` of `findFullyValidHighTickAtx`. -/
  findCtxDone : Nat → Bool
  /-- `nipostBuilder.ResetState` succeeds. -/
  resetStateOk : Bool
  /-- `nipost.RemoveChallenge` succeeds. -/
  removeChallengeOk : Bool
  /-- `validator.Post` accepts the stored initial post. -/
  validatePostOk : Bool

/-- The per-identity state the builder reads and mutates:
the persisted challenge and initial post (local DB), the in-memory
`postStates` entry, and whether the delegated prover still holds
in-progress work (cleared by `nipostBuilder.ResetState`). -/
structure St where
  challenge : Option NIPostChallenge
  initialPost : Option InitialPost
  postStateIdle : Bool
  proverHasWork : Bool
  deriving Repr, DecidableEq

/-- Errors surfaced by the modelled `BuildNIPostChallenge`. -/
inductive BuildErr
  | canceled
  | resetStateFailed
  | removeChallengeFailed
  | getLastAtxFailed
  | positioningFailed
  | initialPostMissing
  | initialPostInvalid
  | addChallengeFailed
  deriving Repr, DecidableEq

/-- `Builder.poetRoundStart`:
`layerClock.LayerToTime(epoch.FirstLayer()).Add(poetCfg.PhaseShift)`. -/
def poetRoundStart (cfg : Cfg) (env : Env) (epoch : Nat) : Int :=
  env.layerToTime (epoch * cfg.layersPerEpoch) + cfg.phaseShift

/-- `maxNipostChallengeBuildJitter = 1.0`, expressed as % of the grace period.
As a Go constant it is applied to `time.Duration` arithmetic, where
`gracePeriod*1.0/100.0` evaluates in integer nanoseconds. -/
def maxNipostChallengeBuildJitter : Int := 1

/-- Modelled from the spec: `randomDurationInRange` is not under `src/`;
the spec describes it as `uniformRandom(0, ...)` over the given interval.
The draw is made explicit through a source `r`; for `lo ≤ hi` the result is
uniform over `[lo, hi]` when `r` is uniform. -/
def randomDurationInRange (lo hi : Int) (r : Int) : Int :=
  if hi < lo then lo else lo + r % (hi - lo + 1)

/-- `buildNipostChallengeStartDeadline`:
`roundStart + randomDurationInRange(0, gracePeriod*jitter/100) - gracePeriod`. -/
def buildNipostChallengeStartDeadline (roundStart : Int) (gracePeriod : Int)
    (r : Int) : Int :=
  roundStart + randomDurationInRange 0 (gracePeriod * maxNipostChallengeBuildJitter / 100) r
    - gracePeriod

/-- Modelled from the spec: `atxs.GetIDWithMaxHeight` is not under `src/`;
the spec describes it as selecting "the highest-weight known transaction
header (excluding a growing in-memory rejection set)".  Returns the id of a
maximal-height candidate passing `filter`, or not-found when none passes. -/
def GetIDWithMaxHeight (cands : List (Nat × Nat)) (filter : Nat → Bool) :
    SqlRes Nat :=
  match cands.filter (fun c => filter c.1) with
  | [] => .notFound
  | c :: cs => .ok (cs.foldl (fun best x => if best.2 < x.2 then x else best) c).1

/-- The loop body of `findFullyValidHighTickAtx`, with explicit fuel (each
iteration rejects one more candidate, so `cands.length + 1` steps suffice)
and the rejection set carried as a list.  Returns the selected id together
with the final rejection set; `.fail` models `ctx.Err()`. -/
def findAtxLoop (cands : List (Nat × Nat)) (valid : Nat → Bool)
    (done : Nat → Bool) : Nat → Nat → List Nat → SqlRes (Nat × List Nat)
  | 0, _, _ => .fail
  | fuel + 1, iter, rejected =>
    if done iter then .fail
    else
      match GetIDWithMaxHeight cands (fun id => decide (id ∉ rejected)) with
      | .notFound => .notFound
      | .fail => .fail
      | .ok id =>
        if valid id then .ok (id, rejected)
        else findAtxLoop cands valid done fuel (iter + 1) (id :: rejected)

/-- `findFullyValidHighTickAtx`: start with an empty rejection set. -/
def findFullyValidHighTickAtx (cands : List (Nat × Nat)) (valid : Nat → Bool)
    (done : Nat → Bool) : SqlRes (Nat × List Nat) :=
  findAtxLoop cands valid done (cands.length + 1) 0 []

/-- `Builder.getPositioningAtx`: substitute the golden ATX id (with no error)
when the store reports not-found; propagate other outcomes. -/
def getPositioningAtx (golden : Nat) (cands : List (Nat × Nat))
    (valid : Nat → Bool) (done : Nat → Bool) : SqlRes Nat :=
  match findFullyValidHighTickAtx cands valid done with
  | .notFound => .ok golden
  | .fail => .fail
  | .ok (id, _) => .ok id

/-- `nipost.AddChallenge` viewed from a single identity (lines 541-543):
fails when a challenge is already persisted, otherwise persists `ch`. -/
def addAndReturn (st : St) (ch : NIPostChallenge) :
    Except BuildErr NIPostChallenge × St :=
  match st.challenge with
  | some _ => (.error .addChallengeFailed, st)
  | none => (.ok ch, { st with challenge := some ch })

/-- The target epoch after the round-timing adjustment (lines 465-470):
if the poet round for `current` no longer starts strictly in the future,
advance by exactly one epoch. -/
def nextTargetEpoch (cfg : Cfg) (env : Env) (current : Nat) : Nat :=
  if poetRoundStart cfg env current - env.now ≤ 0 then current + 1 else current

/-- Lines 455-544 of `Builder.BuildNIPostChallenge`: building a fresh
challenge once no reusable persisted challenge remains. -/
def buildFresh (cfg : Cfg) (env : Env) (st : St) :
    Except BuildErr NIPostChallenge × St :=
  match env.getLastAtx with
  | .fail => (.error .getLastAtxFailed, st)
  | other =>
    let current0 : Nat :=
      match other with
      | .ok prev => max env.currentEpoch prev.publishEpoch
      | _ => env.currentEpoch
    let current := nextTargetEpoch cfg env current0
    let wait := buildNipostChallengeStartDeadline (poetRoundStart cfg env current)
      cfg.gracePeriod env.rand
    if 0 < wait - env.now && env.waitCtxDone then (.error .canceled, st)
    else
      match getPositioningAtx cfg.goldenATXID env.atxCandidates env.verifyChainOk
          env.findCtxDone with
      | .fail => (.error .positioningFailed, st)
      | .notFound => (.error .positioningFailed, st)
      | .ok posAtx =>
        match env.getLastAtx with
        | .fail => (.error .getLastAtxFailed, st)
        | .notFound =>
          match st.initialPost with
          | none => (.error .initialPostMissing, st)
          | some post =>
            if !env.validatePostOk then
              (.error .initialPostInvalid, { st with initialPost := none })
            else
              addAndReturn st
                { publishEpoch := current + 1
                  sequence := 0
                  prevATXID := EmptyATXID
                  positioningATX := posAtx
                  commitmentATX := some post.commitmentATX
                  initialPost := some
                    { nonce := post.nonce, indices := post.indices, pow := post.pow } }
        | .ok prevAtx =>
          addAndReturn st
            { publishEpoch := current + 1
              sequence := prevAtx.sequence + 1
              prevATXID := prevAtx.id
              positioningATX := posAtx
              commitmentATX := none
              initialPost := none }

/-- `Builder.BuildNIPostChallenge` (lines 419-545): wait for sync, look up the
persisted challenge, reuse it when fresh, reset-and-rebuild when stale,
build anew when absent. -/
def BuildNIPostChallenge (cfg : Cfg) (env : Env) (st : St) :
    Except BuildErr NIPostChallenge × St :=
  if env.syncCtxDone then (.error .canceled, st)
  else
    let current := env.currentEpoch
    match st.challenge with
    | none => buildFresh cfg env st
    | some challenge =>
      if challenge.publishEpoch < current then
        let st1 := { st with postStateIdle := true }
        if !env.resetStateOk then (.error .resetStateFailed, st1)
        else
          let st2 := { st1 with proverHasWork := false }
          if !env.removeChallengeOk then (.error .removeChallengeFailed, st2)
          else buildFresh cfg env { st2 with challenge := none }
      else (.ok challenge, st)

/-- The error taxonomy the run loop dispatches on (lines 383-415):
`context.Canceled`, `ErrATXChallengeExpired`, `ErrPoetServiceUnstable`, or
anything else.  Wrapping with `fmt.Errorf("...: %w", err)` preserves the
kind under `errors.Is`, so only the kind is modelled. -/
inductive AtxErr
  | canceled
  | challengeExpired
  | poetUnstable
  | other
  deriving Repr, DecidableEq

/-- External collaborators of `Builder.createAtx`, frozen for one call. -/
structure CreateEnv where
  /-- Result of `nipostBuilder.BuildNIPost` (error carries its kind). -/
  buildNIPost : Except AtxErr NIPostState
  /-- `ctx.Done()` fires while awaiting the publication epoch's first layer. -/
  awaitCtxDone : Bool
  /-- `layerClock.CurrentLayer().GetEpoch()` after the wait. -/
  currentEpochAfterWait : Nat
  /-- `atxs.VRFNonce(cdb, nodeID, epoch)` for a given epoch argument. -/
  vrfNonceRead : Nat → SqlRes Nat
  /-- `b.Coinbase()`. -/
  coinbase : Nat
  /-- `sig.NodeID()`. -/
  nodeID : Nat
  /-- `signer.Sign(signing.ATX, atx.SignedBytes())` over the serialized atx. -/
  signAtx : Nat → Nat
  /-- `atx.SignedBytes()` / `codec.Encode` — canonical serialization. -/
  encode : ActivationTx → Nat
  /-- `SignAndFinalizeAtx` (`atx.Initialize()`) succeeds. -/
  signOk : Bool

/-- `SignAndFinalizeAtx` (lines 734-738): sets the signature over the signed
bytes and the smesher id; `Initialize` is id computation (abstracted). -/
def SignAndFinalizeAtx (env : CreateEnv) (atx : ActivationTx) : ActivationTx :=
  { atx with signature := env.signAtx (env.encode atx), smesherID := env.nodeID }

/-- `Builder.createAtx` (lines 615-678): build the NIPost, await the
publication epoch, fail as expired when the epoch has passed (plain error
when an initial post is present), decide VRF-nonce inclusion, assemble and
sign the ATX. -/
def createAtx (env : CreateEnv) (challenge : NIPostChallenge) :
    Except AtxErr ActivationTx :=
  match env.buildNIPost with
  | .error e => .error e
  | .ok nipostState =>
    if env.awaitCtxDone then .error .canceled
    else if challenge.publishEpoch < env.currentEpochAfterWait then
      if challenge.initialPost.isSome then .error .other
      else .error .challengeExpired
    else
      let nonceAndNodeID : Option Nat × Option Nat :=
        if challenge.prevATXID = EmptyATXID then
          (some nipostState.vrfNonce, some env.nodeID)
        else
          match env.vrfNonceRead challenge.publishEpoch with
          | .ok oldNonce =>
            (if nipostState.vrfNonce ≠ oldNonce then some nipostState.vrfNonce else none,
              none)
          | _ => (none, none)
      let atx : ActivationTx :=
        { challenge := challenge
          coinbase := env.coinbase
          nipost := nipostState.nipost
          numUnits := nipostState.numUnits
          vrfNonce := nonceAndNodeID.1
          nodeID := nonceAndNodeID.2
          smesherID := 0
          signature := 0 }
      if env.signOk then .ok (SignAndFinalizeAtx env atx) else .error .other

/-- External collaborators of the broadcast phase of `PublishActivationTx`. -/
structure BCEnv where
  /-- `codec.Encode(atx)` — canonical serialization of the ATX. -/
  encode : ActivationTx → Nat
  /-- Whether `publisher.Publish` succeeds at attempt `i`. -/
  publishOk : Nat → Bool
  /-- Whether `ctx.Done()` has fired when checked after failed attempt `i`. -/
  ctxDoneAt : Nat → Bool
  /-- `nipostBuilder.ResetState` succeeds after the broadcast. -/
  resetStateOk : Bool
  /-- `nipost.RemoveChallenge` succeeds after the broadcast. -/
  removeChallengeOk : Bool

/-- Outcome of the unbounded `for` broadcast loop within the given fuel. -/
inductive LoopRes
  | success (attempt : Nat)
  | canceled (attempt : Nat)
  | spun
  deriving Repr, DecidableEq

/-- Lines 582-595: the broadcast retry loop on the already-built `atx`.
Each iteration serializes and publishes the same value; on failure the loop
exits only if the context is done.  Also returns the payloads sent. -/
def broadcastLoop (env : BCEnv) (atx : ActivationTx) :
    Nat → Nat → LoopRes × List Nat
  | 0, _ => (.spun, [])
  | fuel + 1, i =>
    let payload := env.encode atx
    if env.publishOk i then (.success i, [payload])
    else if env.ctxDoneAt i then (.canceled i, [payload])
    else
      let rest := broadcastLoop env atx fuel (i + 1)
      (rest.1, payload :: rest.2)

/-- Errors surfaced by the publish phase. -/
inductive PubErr
  | broadcastCanceled
  | resetFailed
  | removeFailed
  deriving Repr, DecidableEq

/-- Result of the publish phase within the given fuel: a settled outcome with
the final state and broadcast trace, or still retrying. -/
inductive PubPhase
  | done (r : Except PubErr Unit) (st : St) (trace : List Nat)
  | running (st : St) (trace : List Nat)
  deriving Repr

/-- Lines 582-602 of `Builder.PublishActivationTx`, after `createAtx`
returned: broadcast in a retry loop; on the first success reset the prover
state and remove the persisted challenge; on cancellation return the
wrapping error with no state change. -/
def publishAtxPhase (env : BCEnv) (st : St) (atx : ActivationTx) (fuel : Nat) :
    PubPhase :=
  match broadcastLoop env atx fuel 0 with
  | (.spun, tr) => .running st tr
  | (.canceled _, tr) => .done (.error .broadcastCanceled) st tr
  | (.success _, tr) =>
    if !env.resetStateOk then .done (.error .resetFailed) st tr
    else
      let st1 := { st with proverHasWork := false }
      if !env.removeChallengeOk then .done (.error .removeFailed) st1 tr
      else .done (.ok ()) { st1 with challenge := none } tr

/-- Lines 383-415 of `Builder.run`: the state mutations performed when
`PublishActivationTx` fails.  Only `ErrATXChallengeExpired` resets the
prover state and discards the persisted challenge (each step merely logged
on failure); the other kinds mutate nothing. -/
def runHandlePublishError (resetOk removeOk : Bool) (e : AtxErr) (st : St) : St :=
  match e with
  | .challengeExpired =>
    let st1 := if resetOk then { st with proverHasWork := false } else st
    if removeOk then { st1 with challenge := none } else st1
  | _ => st

/-- Observable actions of `StopSmeshing`, in order. -/
inductive StopAction
  | cancelCtx
  | waitLoops
  | setIdle (id : Nat)
  | resetAttempt (id : Nat) (ok : Bool)
  | removeAttempt (id : Nat) (ok : Bool)
  deriving Repr, DecidableEq

/-- Result of `eg.Wait()` after cancellation. -/
inductive EgRes
  | nil
  | canceledErr
  | otherErr
  deriving Repr, DecidableEq

/-- A component of the joined `resetErr`. -/
inductive StopFailure
  | resetFailed (id : Nat)
  | removeFailed (id : Nat)
  deriving Repr, DecidableEq

/-- Overall result of `StopSmeshing`: `finished []` is the nil error,
`finished fs` with `fs ≠ []` the joined reset errors. -/
inductive StopRes
  | notStartedErr
  | stopFailedErr
  | finished (failures : List StopFailure)
  deriving Repr, DecidableEq

/-- One iteration of the `for _, sig := range b.signers` loop of
`StopSmeshing` (lines 277-291): set the post state to idle, attempt the
prover reset — on failure record it and `continue`, skipping the challenge
removal for this identity — then attempt the challenge removal, recording
its failure. -/
def resetIdentity (resetOk removeOk : Nat → Bool) (id : Nat) :
    List StopFailure × List StopAction :=
  if resetOk id then
    if removeOk id then
      ([], [.setIdle id, .resetAttempt id true, .removeAttempt id true])
    else
      ([.removeFailed id], [.setIdle id, .resetAttempt id true, .removeAttempt id false])
  else
    ([.resetFailed id], [.setIdle id, .resetAttempt id false])

/-- The whole per-identity loop of `StopSmeshing`: failures joined and
actions taken, in signer order. -/
def resetIdentities (resetOk removeOk : Nat → Bool) :
    List Nat → List StopFailure × List StopAction
  | [] => ([], [])
  | id :: rest =>
    let head := resetIdentity resetOk removeOk id
    let tail := resetIdentities resetOk removeOk rest
    (head.1 ++ tail.1, head.2 ++ tail.2)

/-- `Builder.StopSmeshing` (lines 260-296): error when not started; cancel
the loops' context and wait for the group; on a clean exit, when
`deleteFiles` is set, run the per-identity reset loop and return the joined
error. -/
def stopSmeshing (started deleteFiles : Bool) (egRes : EgRes)
    (signers : List Nat) (resetOk removeOk : Nat → Bool) :
    StopRes × List StopAction :=
  if !started then (.notStartedErr, [])
  else
    let acts : List StopAction := [.cancelCtx, .waitLoops]
    match egRes with
    | .otherErr => (.stopFailedErr, acts)
    | _ =>
      if !deleteFiles then (.finished [], acts)
      else
        let loop := resetIdentities resetOk removeOk signers
        (.finished loop.1, acts ++ loop.2)

/-! ### Helper lemmas -/

theorem foldl_maxHeight_mem (cs : List (Nat × Nat)) (c : Nat × Nat) :
    cs.foldl (fun best x => if best.2 < x.2 then x else best) c ∈ c :: cs := by
  induction cs generalizing c with
  | nil => simp
  | cons d ds ih =>
    simp only [List.foldl_cons]
    have h := ih (if c.2 < d.2 then d else c)
    by_cases hcd : c.2 < d.2 <;> simp [hcd] at h ⊢ <;> tauto

theorem GetIDWithMaxHeight_ok_filter (cands : List (Nat × Nat)) (f : Nat → Bool)
    (id : Nat) (h : GetIDWithMaxHeight cands f = .ok id) : f id = true := by
  unfold GetIDWithMaxHeight at h
  cases hfl : cands.filter (fun c => f c.1) with
  | nil => rw [hfl] at h; cases h
  | cons c cs =>
    rw [hfl] at h
    have hm := foldl_maxHeight_mem cs c
    rw [← hfl] at hm
    have hf := List.of_mem_filter hm
    cases h
    exact hf

theorem findAtxLoop_ok_inv (cands : List (Nat × Nat)) (valid done : Nat → Bool) :
    ∀ fuel iter rej id rej',
      findAtxLoop cands valid done fuel iter rej = .ok (id, rej') →
      valid id = true ∧ id ∉ rej' ∧ ∀ r ∈ rej', r ∈ rej ∨ valid r = false := by
  intro fuel
  induction fuel with
  | zero => intro iter rej id rej' h; simp [findAtxLoop] at h
  | succ n ih =>
    intro iter rej id rej' h
    unfold findAtxLoop at h
    split at h
    · cases h
    · cases hmax : GetIDWithMaxHeight cands (fun a => decide (a ∉ rej)) with
      | notFound => rw [hmax] at h; cases h
      | fail => rw [hmax] at h; cases h
      | ok sel =>
        rw [hmax] at h
        dsimp only at h
        have hsel : sel ∉ rej := by
          have := GetIDWithMaxHeight_ok_filter _ _ _ hmax
          simpa using this
        by_cases hv : valid sel = true
        · rw [if_pos hv] at h
          cases h
          exact ⟨hv, hsel, fun r hr => .inl hr⟩
        · rw [if_neg hv] at h
          have hv' : valid sel = false := by
            cases hvv : valid sel
            · rfl
            · exact absurd hvv hv
          obtain ⟨h1, h2, h3⟩ := ih (iter + 1) (sel :: rej) id rej' h
          refine ⟨h1, h2, fun r hr => ?_⟩
          rcases h3 r hr with hm | hvr
          · rcases List.mem_cons.mp hm with rfl | hm
            · exact .inr hv'
            · exact .inl hm
          · exact .inr hvr

/-! ### Claims -/

/-- C2: attempting to persist a second Challenge for an identity that already
has one fails and leaves the first unchanged and retrievable; persisting for
a different identity that has none succeeds. -/
theorem nipost_AddChallenge_unique (db : Nat → Option NIPostChallenge)
    (id id2 : Nat) (ch1 ch2 : NIPostChallenge)
    (h1 : nipost.Challenge db id = some ch1) :
    nipost.AddChallenge db id ch2 = .error () ∧
    nipost.Challenge db id = some ch1 ∧
    (nipost.Challenge db id2 = none →
      ∃ db', nipost.AddChallenge db id2 ch2 = .ok db' ∧
        nipost.Challenge db' id2 = some ch2 ∧
        nipost.Challenge db' id = some ch1) := by
  unfold nipost.Challenge at h1
  refine ⟨?_, h1, ?_⟩
  · unfold nipost.AddChallenge
    rw [h1]
  · intro h2
    unfold nipost.Challenge at h2
    have hne : id ≠ id2 := by
      intro e
      rw [e, h2] at h1
      cases h1
    unfold nipost.AddChallenge
    rw [h2]
    exact ⟨_, rfl, by simp [nipost.Challenge], by simp [nipost.Challenge, hne, h1]⟩

/-- A sample persisted challenge for concrete instantiations. -/
def sampleChallenge : NIPostChallenge :=
  { publishEpoch := 4, sequence := 2, prevATXID := 3, positioningATX := 2,
    commitmentATX := none, initialPost := none }

/-- C2 witness: a concrete run of the uniqueness contract. -/
theorem nipost_AddChallenge_unique_witness :
    nipost.AddChallenge
        (fun x => if x = 0 then some sampleChallenge else none) 0 sampleChallenge
        = .error () ∧
    nipost.Challenge (fun x => if x = 0 then some sampleChallenge else none) 0
      = some sampleChallenge ∧
    (nipost.Challenge (fun x => if x = 0 then some sampleChallenge else none) 1 = none →
      ∃ db', nipost.AddChallenge
          (fun x => if x = 0 then some sampleChallenge else none) 1 sampleChallenge
          = .ok db' ∧
        nipost.Challenge db' 1 = some sampleChallenge ∧
        nipost.Challenge db' 0 = some sampleChallenge) :=
  nipost_AddChallenge_unique (fun x => if x = 0 then some sampleChallenge else none)
    0 1 sampleChallenge sampleChallenge rfl

/-- C6: `findFullyValidHighTickAtx` returns a chain-valid id whose rejection
set contains only chain-invalid ids (rejected ids are never returned);
`getPositioningAtx` substitutes the golden ATX with no error when the store
has no candidate left; and on candidates A > B > C by height with A invalid
and B valid, the result is B with exactly A rejected. -/
theorem getPositioningAtx_rejection_loop :
    (∀ cands (valid done : Nat → Bool) id rej',
      findFullyValidHighTickAtx cands valid done = .ok (id, rej') →
      valid id = true ∧ id ∉ rej' ∧ ∀ r ∈ rej', valid r = false) ∧
    (∀ golden cands (valid done : Nat → Bool),
      findFullyValidHighTickAtx cands valid done = .notFound →
      getPositioningAtx golden cands valid done = .ok golden) ∧
    findFullyValidHighTickAtx [(1, 30), (2, 20), (3, 10)]
      (fun id => id != 1) (fun _ => false) = .ok (2, [1]) := by
  refine ⟨?_, ?_, by decide⟩
  · intro cands valid done id rej' h
    obtain ⟨h1, h2, h3⟩ := findAtxLoop_ok_inv cands valid done _ 0 [] id rej' h
    refine ⟨h1, h2, fun r hr => ?_⟩
    rcases h3 r hr with hm | hv
    · cases hm
    · exact hv
  · intro golden cands valid done h
    unfold getPositioningAtx
    rw [h]

/-- C6 witness: the invariants evaluated on the concrete A/B/C instance. -/
theorem getPositioningAtx_rejection_loop_witness :
    ((fun id => id != 1) 2 = true ∧ 2 ∉ [1] ∧
      ∀ r ∈ [1], (fun id => id != 1) r = false) ∧
    getPositioningAtx 99 [] (fun _ => true) (fun _ => false) = .ok 99 :=
  ⟨getPositioningAtx_rejection_loop.1 [(1, 30), (2, 20), (3, 10)]
      (fun id => id != 1) (fun _ => false) 2 [1] (by decide),
    getPositioningAtx_rejection_loop.2.1 99 [] (fun _ => true) (fun _ => false)
      (by decide)⟩

theorem resetIdentity_resetAttempt_mem (resetOk removeOk : Nat → Bool) (id : Nat) :
    StopAction.resetAttempt id (resetOk id) ∈ (resetIdentity resetOk removeOk id).2 := by
  cases hr : resetOk id <;> cases hv : removeOk id <;> simp [resetIdentity, hr, hv]

theorem resetIdentity_removeAttempt_char (resetOk removeOk : Nat → Bool)
    (id id2 : Nat) (b : Bool) :
    StopAction.removeAttempt id2 b ∈ (resetIdentity resetOk removeOk id).2 ↔
      id2 = id ∧ resetOk id = true ∧ b = removeOk id := by
  cases hr : resetOk id <;> cases hv : removeOk id <;>
    simp [resetIdentity, hr, hv]

theorem resetIdentity_resetFailed_char (resetOk removeOk : Nat → Bool)
    (id id2 : Nat) :
    StopFailure.resetFailed id2 ∈ (resetIdentity resetOk removeOk id).1 ↔
      id2 = id ∧ resetOk id = false := by
  cases hr : resetOk id <;> cases hv : removeOk id <;>
    simp [resetIdentity, hr, hv]

theorem resetIdentity_removeFailed_char (resetOk removeOk : Nat → Bool)
    (id id2 : Nat) :
    StopFailure.removeFailed id2 ∈ (resetIdentity resetOk removeOk id).1 ↔
      id2 = id ∧ resetOk id = true ∧ removeOk id = false := by
  cases hr : resetOk id <;> cases hv : removeOk id <;>
    simp [resetIdentity, hr, hv]

theorem resetIdentities_resetAttempt_mem (resetOk removeOk : Nat → Bool)
    (signers : List Nat) (id : Nat) (h : id ∈ signers) :
    StopAction.resetAttempt id (resetOk id) ∈ (resetIdentities resetOk removeOk signers).2 := by
  induction signers with
  | nil => cases h
  | cons s rest ih =>
    simp only [resetIdentities, List.mem_append]
    rcases List.mem_cons.mp h with rfl | hm
    · exact .inl (resetIdentity_resetAttempt_mem resetOk removeOk id)
    · exact .inr (ih hm)

theorem resetIdentities_removeAttempt_char (resetOk removeOk : Nat → Bool)
    (signers : List Nat) (id : Nat) (b : Bool) :
    StopAction.removeAttempt id b ∈ (resetIdentities resetOk removeOk signers).2 ↔
      id ∈ signers ∧ resetOk id = true ∧ b = removeOk id := by
  induction signers with
  | nil => simp [resetIdentities]
  | cons s rest ih =>
    simp only [resetIdentities, List.mem_append, List.mem_cons, ih,
      resetIdentity_removeAttempt_char]
    constructor
    · rintro (⟨rfl, h2, h3⟩ | ⟨hm, h2, h3⟩)
      · exact ⟨.inl rfl, h2, h3⟩
      · exact ⟨.inr hm, h2, h3⟩
    · rintro ⟨rfl | hm, h2, h3⟩
      · exact .inl ⟨rfl, h2, h3⟩
      · exact .inr ⟨hm, h2, h3⟩

theorem resetIdentities_resetFailed_char (resetOk removeOk : Nat → Bool)
    (signers : List Nat) (id : Nat) :
    StopFailure.resetFailed id ∈ (resetIdentities resetOk removeOk signers).1 ↔
      id ∈ signers ∧ resetOk id = false := by
  induction signers with
  | nil => simp [resetIdentities]
  | cons s rest ih =>
    simp only [resetIdentities, List.mem_append, List.mem_cons, ih,
      resetIdentity_resetFailed_char]
    constructor
    · rintro (⟨rfl, h2⟩ | ⟨hm, h2⟩)
      · exact ⟨.inl rfl, h2⟩
      · exact ⟨.inr hm, h2⟩
    · rintro ⟨rfl | hm, h2⟩
      · exact .inl ⟨rfl, h2⟩
      · exact .inr ⟨hm, h2⟩

theorem resetIdentities_removeFailed_char (resetOk removeOk : Nat → Bool)
    (signers : List Nat) (id : Nat) :
    StopFailure.removeFailed id ∈ (resetIdentities resetOk removeOk signers).1 ↔
      id ∈ signers ∧ resetOk id = true ∧ removeOk id = false := by
  induction signers with
  | nil => simp [resetIdentities]
  | cons s rest ih =>
    simp only [resetIdentities, List.mem_append, List.mem_cons, ih,
      resetIdentity_removeFailed_char]
    constructor
    · rintro (⟨rfl, h2, h3⟩ | ⟨hm, h2, h3⟩)
      · exact ⟨.inl rfl, h2, h3⟩
      · exact ⟨.inr hm, h2, h3⟩
    · rintro ⟨rfl | hm, h2, h3⟩
      · exact .inl ⟨rfl, h2, h3⟩
      · exact .inr ⟨hm, h2, h3⟩

/-- C7 counterexample: with one registered identity whose prover reset fails,
`StopSmeshing(true)` records the reset attempt and its failure but never
attempts the persisted-Challenge removal for that identity — the claim that
both actions are attempted for every identity is false. -/
theorem stopSmeshing_skips_remove_on_reset_failure :
    StopAction.resetAttempt 0 false
      ∈ (stopSmeshing true true .nil [0] (fun _ => false) (fun _ => true)).2 ∧
    (¬ ∃ b, StopAction.removeAttempt 0 b
      ∈ (stopSmeshing true true .nil [0] (fun _ => false) (fun _ => true)).2) ∧
    (stopSmeshing true true .nil [0] (fun _ => false) (fun _ => true)).1
      = .finished [.resetFailed 0] := by
  refine ⟨by decide, ?_, by decide⟩
  rintro ⟨b, hb⟩
  cases b <;> revert hb <;> decide

/-- C7 (amended): `StopSmeshing` errors when not started; otherwise it cancels
the loops' context and waits for them; only when the reset flag is set it
attempts the prover-state reset for every registered identity (even if other
identities fail), attempts the persisted-Challenge removal exactly for the
identities whose reset succeeded, and aggregates every reset and removal
failure into the returned error. -/
theorem stopSmeshing_reset_behaviour (deleteFiles : Bool) (egRes : EgRes)
    (signers : List Nat) (resetOk removeOk : Nat → Bool)
    (heg : egRes ≠ .otherErr) :
    stopSmeshing false deleteFiles egRes signers resetOk removeOk
      = (.notStartedErr, []) ∧
    (deleteFiles = false →
      stopSmeshing true deleteFiles egRes signers resetOk removeOk
        = (.finished [], [.cancelCtx, .waitLoops])) ∧
    (deleteFiles = true →
      (stopSmeshing true deleteFiles egRes signers resetOk removeOk).2.take 2
        = [.cancelCtx, .waitLoops] ∧
      ∀ id, (id ∈ signers →
        StopAction.resetAttempt id (resetOk id)
          ∈ (stopSmeshing true deleteFiles egRes signers resetOk removeOk).2) ∧
        (∀ b, StopAction.removeAttempt id b
            ∈ (stopSmeshing true deleteFiles egRes signers resetOk removeOk).2 ↔
          id ∈ signers ∧ resetOk id = true ∧ b = removeOk id) ∧
        ((stopSmeshing true deleteFiles egRes signers resetOk removeOk).1
            = .finished (resetIdentities resetOk removeOk signers).1 ∧
          (StopFailure.resetFailed id ∈ (resetIdentities resetOk removeOk signers).1 ↔
            id ∈ signers ∧ resetOk id = false) ∧
          (StopFailure.removeFailed id ∈ (resetIdentities resetOk removeOk signers).1 ↔
            id ∈ signers ∧ resetOk id = true ∧ removeOk id = false))) := by
  have hstop : ∀ df : Bool, stopSmeshing true df egRes signers resetOk removeOk
      = if df then
          (.finished (resetIdentities resetOk removeOk signers).1,
            [StopAction.cancelCtx, StopAction.waitLoops]
              ++ (resetIdentities resetOk removeOk signers).2)
        else (.finished [], [.cancelCtx, .waitLoops]) := by
    intro df
    unfold stopSmeshing
    cases egRes with
    | otherErr => exact absurd rfl heg
    | nil => cases df <;> simp
    | canceledErr => cases df <;> simp
  refine ⟨by unfold stopSmeshing; simp, ?_, ?_⟩
  · intro hdf
    rw [hstop, hdf]
    simp
  · intro hdf
    rw [hstop, hdf]
    refine ⟨by simp [List.take], fun id => ⟨fun hm => ?_, fun b => ?_, by simp,
      resetIdentities_resetFailed_char resetOk removeOk signers id,
      resetIdentities_removeFailed_char resetOk removeOk signers id⟩⟩
    · simp only [if_true, List.mem_append]
      exact .inr (resetIdentities_resetAttempt_mem resetOk removeOk signers id hm)
    · simp only [if_true, List.mem_append]
      constructor
      · rintro (h | h)
        · simp at h
        · exact (resetIdentities_removeAttempt_char resetOk removeOk signers id b).mp h
      · intro h
        exact .inr ((resetIdentities_removeAttempt_char resetOk removeOk signers id b).mpr h)

/-- C3: when, after the publication-epoch wait, the current epoch is strictly
past the challenge's publish epoch, `createAtx` fails; the error is the
distinguished `ErrATXChallengeExpired` exactly when the challenge carries no
initial proof; and the run loop resets the prover state and removes the
persisted challenge exactly for that error kind. -/
theorem createAtx_expired_classification (env : CreateEnv) (ch : NIPostChallenge)
    (ns : NIPostState)
    (hb : env.buildNIPost = .ok ns) (hctx : env.awaitCtxDone = false)
    (hep : ch.publishEpoch < env.currentEpochAfterWait) :
    (∃ e, createAtx env ch = .error e) ∧
    (createAtx env ch = .error .challengeExpired ↔ ch.initialPost = none) ∧
    (∀ st : St, runHandlePublishError true true .challengeExpired st
      = { st with proverHasWork := false, challenge := none }) ∧
    (∀ (ro rm : Bool) (e : AtxErr) (st : St), e ≠ .challengeExpired →
      runHandlePublishError ro rm e st = st) := by
  have hca : createAtx env ch
      = if ch.initialPost.isSome then .error .other else .error .challengeExpired := by
    unfold createAtx
    rw [hb]
    simp [hctx, hep]
  refine ⟨?_, ?_, fun st => rfl, ?_⟩
  · rw [hca]
    split <;> exact ⟨_, rfl⟩
  · rw [hca]
    cases hip : ch.initialPost <;> simp
  · intro ro rm e st he
    cases e with
    | challengeExpired => exact absurd rfl he
    | canceled => rfl
    | poetUnstable => rfl
    | other => rfl

/-- A concrete `createAtx` environment for witnesses and counterexamples. -/
def cenvW : CreateEnv :=
  { buildNIPost := .ok { vrfNonce := 5, nipost := 7, numUnits := 2 }
    awaitCtxDone := false
    currentEpochAfterWait := 9
    vrfNonceRead := fun _ => .ok 5
    coinbase := 1
    nodeID := 4
    signAtx := fun n => n + 1
    encode := fun _ => 3
    signOk := true }

/-- C3 witness: the expired classification at a concrete stale challenge. -/
theorem createAtx_expired_classification_witness :
    createAtx cenvW sampleChallenge = .error .challengeExpired ∧
    runHandlePublishError true true .challengeExpired
        { challenge := some sampleChallenge, initialPost := none,
          postStateIdle := false, proverHasWork := true }
      = { challenge := none, initialPost := none,
          postStateIdle := false, proverHasWork := false } := by
  have h := createAtx_expired_classification cenvW sampleChallenge
    { vrfNonce := 5, nipost := 7, numUnits := 2 } rfl rfl (by decide)
  exact ⟨h.2.1.mpr rfl, h.2.2.1 _⟩

/-- C8: with a non-empty previous-ATX id, the assembled ATX carries a VRF
nonce exactly when the freshly computed nonce differs from the one recorded
for that identity at the publish epoch; with the empty sentinel (initial
challenge) the fresh nonce is always included. -/
theorem createAtx_vrf_nonce_inclusion (env : CreateEnv) (ch : NIPostChallenge)
    (ns : NIPostState) (old : Nat)
    (hb : env.buildNIPost = .ok ns) (hctx : env.awaitCtxDone = false)
    (hep : ¬ ch.publishEpoch < env.currentEpochAfterWait)
    (hsig : env.signOk = true) :
    (ch.prevATXID ≠ EmptyATXID → env.vrfNonceRead ch.publishEpoch = .ok old →
      ∃ atx, createAtx env ch = .ok atx ∧
        atx.vrfNonce = (if ns.vrfNonce = old then none else some ns.vrfNonce)) ∧
    (ch.prevATXID = EmptyATXID →
      ∃ atx, createAtx env ch = .ok atx ∧ atx.vrfNonce = some ns.vrfNonce) := by
  constructor
  · intro hprev hread
    have hca : createAtx env ch = .ok (SignAndFinalizeAtx env
        { challenge := ch, coinbase := env.coinbase, nipost := ns.nipost,
          numUnits := ns.numUnits,
          vrfNonce := if ns.vrfNonce = old then none else some ns.vrfNonce,
          nodeID := none, smesherID := 0, signature := 0 }) := by
      unfold createAtx
      rw [hb]
      simp only [hctx, Bool.false_eq_true, if_false, hep, if_neg hprev, hread, hsig,
        if_true, ite_not]
    exact ⟨_, hca, by simp [SignAndFinalizeAtx]⟩
  · intro hprev
    have hca : createAtx env ch = .ok (SignAndFinalizeAtx env
        { challenge := ch, coinbase := env.coinbase, nipost := ns.nipost,
          numUnits := ns.numUnits, vrfNonce := some ns.vrfNonce,
          nodeID := some env.nodeID, smesherID := 0, signature := 0 }) := by
      unfold createAtx
      rw [hb]
      simp only [hctx, Bool.false_eq_true, if_false, hep, if_pos hprev, hsig, if_true]
    exact ⟨_, hca, by simp [SignAndFinalizeAtx]⟩

/-- C8 witness: equal nonces yield no re-announcement; an initial challenge
always includes the nonce. -/
theorem createAtx_vrf_nonce_inclusion_witness :
    (∃ atx, createAtx cenvW { sampleChallenge with publishEpoch := 9 } = .ok atx ∧
      atx.vrfNonce = (if 5 = 5 then none else some (5 : Nat))) ∧
    (∃ atx, createAtx cenvW
        { sampleChallenge with publishEpoch := 9, prevATXID := EmptyATXID }
      = .ok atx ∧ atx.vrfNonce = some 5) :=
  ⟨(createAtx_vrf_nonce_inclusion cenvW { sampleChallenge with publishEpoch := 9 }
      { vrfNonce := 5, nipost := 7, numUnits := 2 } 5 rfl rfl (by decide) rfl).1
      (by decide) rfl,
    (createAtx_vrf_nonce_inclusion cenvW
      { sampleChallenge with publishEpoch := 9, prevATXID := EmptyATXID }
      { vrfNonce := 5, nipost := 7, numUnits := 2 } 5 rfl rfl (by decide) rfl).2 rfl⟩

/-- C10: when the read of the previously recorded VRF nonce fails for a
challenge with a non-empty previous-ATX id, `createAtx` still succeeds and
the assembled, signed ATX carries no VRF nonce. -/
theorem createAtx_vrf_read_failure (env : CreateEnv) (ch : NIPostChallenge)
    (ns : NIPostState)
    (hb : env.buildNIPost = .ok ns) (hctx : env.awaitCtxDone = false)
    (hep : ¬ ch.publishEpoch < env.currentEpochAfterWait)
    (hsig : env.signOk = true)
    (hprev : ch.prevATXID ≠ EmptyATXID)
    (hread : env.vrfNonceRead ch.publishEpoch = .fail) :
    ∃ atx, createAtx env ch = .ok atx ∧ atx.vrfNonce = none ∧ atx.nodeID = none := by
  have hca : createAtx env ch = .ok (SignAndFinalizeAtx env
      { challenge := ch, coinbase := env.coinbase, nipost := ns.nipost,
        numUnits := ns.numUnits, vrfNonce := none,
        nodeID := none, smesherID := 0, signature := 0 }) := by
    unfold createAtx
    rw [hb]
    simp only [hctx, Bool.false_eq_true, if_false, hep, if_neg hprev, hread, hsig, if_true]
  exact ⟨_, hca, by simp [SignAndFinalizeAtx], by simp [SignAndFinalizeAtx]⟩

/-- C10 witness: a concrete failing nonce read still yields a signed ATX with
no VRF nonce even though the fresh nonce differs from any stored value. -/
theorem createAtx_vrf_read_failure_witness :
    ∃ atx, createAtx { cenvW with vrfNonceRead := fun _ => .fail }
        { sampleChallenge with publishEpoch := 9 }
      = .ok atx ∧ atx.vrfNonce = none ∧ atx.nodeID = none :=
  createAtx_vrf_read_failure { cenvW with vrfNonceRead := fun _ => .fail }
    { sampleChallenge with publishEpoch := 9 } { vrfNonce := 5, nipost := 7, numUnits := 2 }
    rfl rfl (by decide) rfl (by decide) rfl

theorem broadcastLoop_trace (env : BCEnv) (atx : ActivationTx) :
    ∀ fuel i, ∀ p ∈ (broadcastLoop env atx fuel i).2, p = env.encode atx := by
  intro fuel
  induction fuel with
  | zero => intro i p hp; simp [broadcastLoop] at hp
  | succ n ih =>
    intro i p hp
    unfold broadcastLoop at hp
    by_cases h1 : env.publishOk i = true
    · simp [h1] at hp
      exact hp
    · by_cases h2 : env.ctxDoneAt i = true
      · simp [h1, h2] at hp
        exact hp
      · simp [h1, h2] at hp
        rcases hp with rfl | hp
        · rfl
        · exact ih (i + 1) p hp

theorem broadcastLoop_success_char (env : BCEnv) (atx : ActivationTx) :
    ∀ fuel i j tr, broadcastLoop env atx fuel i = (.success j, tr) →
      env.publishOk j = true := by
  intro fuel
  induction fuel with
  | zero => intro i j tr h; simp [broadcastLoop] at h
  | succ n ih =>
    intro i j tr h
    unfold broadcastLoop at h
    by_cases h1 : env.publishOk i = true
    · rw [if_pos h1] at h
      cases h
      exact h1
    · rw [if_neg h1] at h
      by_cases h2 : env.ctxDoneAt i = true
      · rw [if_pos h2] at h
        cases h
      · rw [if_neg h2] at h
        have h' : broadcastLoop env atx n (i + 1)
            = (.success j, (broadcastLoop env atx n (i + 1)).2) := by
          cases hb : broadcastLoop env atx n (i + 1)
          rw [hb] at h
          cases h
          rfl
        exact ih (i + 1) j _ h'

theorem broadcastLoop_canceled_char (env : BCEnv) (atx : ActivationTx) :
    ∀ fuel i j tr, broadcastLoop env atx fuel i = (.canceled j, tr) →
      env.publishOk j = false ∧ env.ctxDoneAt j = true := by
  intro fuel
  induction fuel with
  | zero => intro i j tr h; simp [broadcastLoop] at h
  | succ n ih =>
    intro i j tr h
    unfold broadcastLoop at h
    by_cases h1 : env.publishOk i = true
    · rw [if_pos h1] at h
      cases h
    · rw [if_neg h1] at h
      by_cases h2 : env.ctxDoneAt i = true
      · rw [if_pos h2] at h
        cases h
        exact ⟨Bool.not_eq_true _ |>.mp h1, h2⟩
      · rw [if_neg h2] at h
        have h' : broadcastLoop env atx n (i + 1)
            = (.canceled j, (broadcastLoop env atx n (i + 1)).2) := by
          cases hb : broadcastLoop env atx n (i + 1)
          rw [hb] at h
          cases h
          rfl
        exact ih (i + 1) j _ h'

/-- C4: the broadcast phase of `PublishActivationTx` retries the same
already-signed ATX (every payload sent is its one serialization), settles
only when an attempt succeeds or the context is done, clears the prover
state and the persisted challenge on success, and on cancellation returns
the wrapping error with the state untouched. -/
theorem publishAtxPhase_retry_loop (env : BCEnv) (st : St) (atx : ActivationTx) :
    (∀ fuel r st' tr, publishAtxPhase env st atx fuel = .done r st' tr →
      (∀ p ∈ tr, p = env.encode atx) ∧
      (∃ j, env.publishOk j = true ∨
        (env.publishOk j = false ∧ env.ctxDoneAt j = true))) ∧
    (∀ fuel st' tr, publishAtxPhase env st atx fuel = .running st' tr →
      st' = st ∧ ∀ p ∈ tr, p = env.encode atx) ∧
    (env.resetStateOk = true → env.removeChallengeOk = true →
      ∀ fuel st' tr, publishAtxPhase env st atx fuel = .done (.ok ()) st' tr →
        st' = { st with proverHasWork := false, challenge := none }) ∧
    (∀ fuel st' tr,
      publishAtxPhase env st atx fuel = .done (.error .broadcastCanceled) st' tr →
        st' = st) := by
  have htr : ∀ fuel (r : LoopRes) tr, broadcastLoop env atx fuel 0 = (r, tr) →
      ∀ p ∈ tr, p = env.encode atx := by
    intro fuel r tr hb p hp
    have := broadcastLoop_trace env atx fuel 0
    rw [hb] at this
    exact this p hp
  refine ⟨?_, ?_, ?_, ?_⟩
  · intro fuel r st' tr h
    unfold publishAtxPhase at h
    cases hb : broadcastLoop env atx fuel 0 with
    | mk res tr0 =>
      rw [hb] at h
      cases res with
      | spun => cases h
      | canceled j =>
        cases h
        exact ⟨htr fuel _ _ hb, j, .inr (broadcastLoop_canceled_char env atx fuel 0 j _ hb)⟩
      | success j =>
        have hj := broadcastLoop_success_char env atx fuel 0 j _ hb
        by_cases hro : env.resetStateOk = true
        · by_cases hrm : env.removeChallengeOk = true
          · rw [hro, hrm] at h
            cases h
            exact ⟨htr fuel _ _ hb, j, .inl hj⟩
          · simp only [hro, Bool.not_true, if_false, Bool.not_eq_true] at h
            rw [Bool.not_eq_true _ |>.mp hrm] at h
            cases h
            exact ⟨htr fuel _ _ hb, j, .inl hj⟩
        · rw [Bool.not_eq_true _ |>.mp hro] at h
          cases h
          exact ⟨htr fuel _ _ hb, j, .inl hj⟩
  · intro fuel st' tr h
    unfold publishAtxPhase at h
    cases hb : broadcastLoop env atx fuel 0 with
    | mk res tr0 =>
      rw [hb] at h
      cases res with
      | spun =>
        cases h
        exact ⟨rfl, htr fuel _ _ hb⟩
      | canceled j => cases h
      | success j =>
        by_cases hro : env.resetStateOk = true
        · by_cases hrm : env.removeChallengeOk = true
          · rw [hro, hrm] at h
            cases h
          · rw [hro, Bool.not_eq_true _ |>.mp hrm] at h
            cases h
        · rw [Bool.not_eq_true _ |>.mp hro] at h
          cases h
  · intro hro hrm fuel st' tr h
    unfold publishAtxPhase at h
    cases hb : broadcastLoop env atx fuel 0 with
    | mk res tr0 =>
      rw [hb, hro, hrm] at h
      cases res with
      | spun => cases h
      | canceled j => cases h
      | success j =>
        cases h
        rfl
  · intro fuel st' tr h
    unfold publishAtxPhase at h
    cases hb : broadcastLoop env atx fuel 0 with
    | mk res tr0 =>
      rw [hb] at h
      cases res with
      | spun => cases h
      | canceled j =>
        cases h
        rfl
      | success j =>
        by_cases hro : env.resetStateOk = true
        · by_cases hrm : env.removeChallengeOk = true
          · rw [hro, hrm] at h
            cases h
          · rw [hro, Bool.not_eq_true _ |>.mp hrm] at h
            cases h
        · rw [Bool.not_eq_true _ |>.mp hro] at h
          cases h

theorem buildFresh_ok_regular (cfg : Cfg) (env : Env) (st : St) (prev : LastAtx) (pos : Nat)
    (hla : env.getLastAtx = .ok prev)
    (hnc : (decide (0 < buildNipostChallengeStartDeadline
        (poetRoundStart cfg env (nextTargetEpoch cfg env (max env.currentEpoch prev.publishEpoch)))
        cfg.gracePeriod env.rand - env.now) && env.waitCtxDone) = false)
    (hpos : getPositioningAtx cfg.goldenATXID env.atxCandidates env.verifyChainOk
      env.findCtxDone = .ok pos)
    (hch : st.challenge = none) :
    buildFresh cfg env st =
      (.ok { publishEpoch := nextTargetEpoch cfg env (max env.currentEpoch prev.publishEpoch) + 1,
             sequence := prev.sequence + 1, prevATXID := prev.id, positioningATX := pos,
             commitmentATX := none, initialPost := none },
       { st with challenge := some (
          { publishEpoch := nextTargetEpoch cfg env (max env.currentEpoch prev.publishEpoch) + 1,
            sequence := prev.sequence + 1, prevATXID := prev.id, positioningATX := pos,
            commitmentATX := none, initialPost := none : NIPostChallenge }) }) := by
  unfold buildFresh
  rw [hla]
  simp only [hnc, Bool.false_eq_true, if_false, hpos, addAndReturn, hch]

theorem buildFresh_ok_initial (cfg : Cfg) (env : Env) (st : St) (post : InitialPost) (pos : Nat)
    (hla : env.getLastAtx = .notFound)
    (hnc : (decide (0 < buildNipostChallengeStartDeadline
        (poetRoundStart cfg env (nextTargetEpoch cfg env env.currentEpoch))
        cfg.gracePeriod env.rand - env.now) && env.waitCtxDone) = false)
    (hpos : getPositioningAtx cfg.goldenATXID env.atxCandidates env.verifyChainOk
      env.findCtxDone = .ok pos)
    (hip : st.initialPost = some post)
    (hval : env.validatePostOk = true)
    (hch : st.challenge = none) :
    buildFresh cfg env st =
      (.ok { publishEpoch := nextTargetEpoch cfg env env.currentEpoch + 1,
             sequence := 0, prevATXID := EmptyATXID, positioningATX := pos,
             commitmentATX := some post.commitmentATX,
             initialPost := some { nonce := post.nonce, indices := post.indices, pow := post.pow } },
       { st with challenge := some (
          { publishEpoch := nextTargetEpoch cfg env env.currentEpoch + 1,
            sequence := 0, prevATXID := EmptyATXID, positioningATX := pos,
            commitmentATX := some post.commitmentATX,
            initialPost := some { nonce := post.nonce, indices := post.indices, pow := post.pow }
            : NIPostChallenge }) }) := by
  unfold buildFresh
  rw [hla]
  simp only [hnc, Bool.false_eq_true, if_false, hpos, hip, hval, Bool.not_true,
    addAndReturn, hch]

theorem nextTargetEpoch_ge (cfg : Cfg) (env : Env) (c : Nat) :
    c ≤ nextTargetEpoch cfg env c := by
  unfold nextTargetEpoch
  split <;> omega

/-- C1: with a persisted challenge whose publish epoch is current or future,
`BuildNIPostChallenge` (after the sync wait) returns it unchanged with no
state mutation; with a stale persisted challenge it sets the post state to
idle, resets the prover, deletes the challenge, and builds and persists a
fresh challenge whose publish epoch is at least the current epoch. -/
theorem BuildNIPostChallenge_reuse_or_reset (cfg : Cfg) (env : Env) (st : St)
    (ch : NIPostChallenge)
    (hsync : env.syncCtxDone = false) (hch : st.challenge = some ch) :
    (env.currentEpoch ≤ ch.publishEpoch →
      BuildNIPostChallenge cfg env st = (.ok ch, st)) ∧
    (ch.publishEpoch < env.currentEpoch →
      env.resetStateOk = true → env.removeChallengeOk = true → env.waitCtxDone = false →
      ∀ pos, getPositioningAtx cfg.goldenATXID env.atxCandidates env.verifyChainOk
          env.findCtxDone = .ok pos →
      env.getLastAtx ≠ .fail →
      (env.getLastAtx = .notFound →
        (∃ p, st.initialPost = some p) ∧ env.validatePostOk = true) →
      ∃ fresh, BuildNIPostChallenge cfg env st =
          (.ok fresh,
            { st with challenge := some fresh, postStateIdle := true, proverHasWork := false }) ∧
        env.currentEpoch ≤ fresh.publishEpoch) := by
  constructor
  · intro hfresh
    unfold BuildNIPostChallenge
    simp only [hsync, Bool.false_eq_true, if_false, hch]
    rw [if_neg (Nat.not_lt.mpr hfresh)]
  · intro hstale hro hrm hwc pos hpos hnf hinit
    unfold BuildNIPostChallenge
    simp only [hsync, Bool.false_eq_true, if_false, hch]
    rw [if_pos hstale]
    simp only [hro, Bool.not_true, Bool.false_eq_true, if_false]
    rw [hrm]
    simp only [Bool.not_true, Bool.false_eq_true, if_false]
    have hnc : ∀ w : Int, (decide (0 < w) && env.waitCtxDone) = false := by
      intro w
      rw [hwc, Bool.and_false]
    cases hla : env.getLastAtx with
    | fail => exact absurd hla hnf
    | notFound =>
      obtain ⟨⟨p, hp⟩, hval⟩ := hinit hla
      rw [buildFresh_ok_initial cfg env
        { challenge := none, initialPost := st.initialPost,
          postStateIdle := true, proverHasWork := false } p pos hla (hnc _) hpos hp hval rfl]
      refine ⟨_, rfl, ?_⟩
      have := nextTargetEpoch_ge cfg env env.currentEpoch
      simp only []
      omega
    | ok prev =>
      rw [buildFresh_ok_regular cfg env
        { challenge := none, initialPost := st.initialPost,
          postStateIdle := true, proverHasWork := false } prev pos hla (hnc _) hpos rfl]
      refine ⟨_, rfl, ?_⟩
      have h1 := nextTargetEpoch_ge cfg env (max env.currentEpoch prev.publishEpoch)
      have h2 : env.currentEpoch ≤ max env.currentEpoch prev.publishEpoch :=
        Nat.le_max_left _ _
      simp only []
      omega

/-- A concrete builder configuration for witnesses. -/
def cfgW : Cfg :=
  { goldenATXID := 99, layersPerEpoch := 10, phaseShift := 5, gracePeriod := 100 }

/-- A concrete builder environment for witnesses: epoch 7, a last ATX
published at epoch 5, candidate ATX 1 failing chain validation. -/
def envW : Env :=
  { syncCtxDone := false
    currentEpoch := 7
    getLastAtx := .ok { id := 3, publishEpoch := 5, sequence := 4 }
    layerToTime := fun l => (l : Int) * 100
    now := 0
    rand := 0
    waitCtxDone := false
    atxCandidates := [(1, 30), (2, 20), (3, 10)]
    verifyChainOk := fun id => id != 1
    findCtxDone := fun _ => false
    resetStateOk := true
    removeChallengeOk := true
    validatePostOk := true }

/-- A concrete per-identity state holding a stale persisted challenge. -/
def stW : St :=
  { challenge := some ({ publishEpoch := 5, sequence := 2, prevATXID := 3,
                         positioningATX := 2, commitmentATX := none,
                         initialPost := none : NIPostChallenge }),
    initialPost := none, postStateIdle := false, proverHasWork := true }

/-- C1 witness: a stale challenge (epoch 5, current 7) is rebuilt with a
publish epoch at least the current epoch, prover reset and state idle. -/
theorem BuildNIPostChallenge_reuse_or_reset_witness :
    ∃ fresh, BuildNIPostChallenge cfgW envW stW =
        (.ok fresh,
          { stW with challenge := some fresh, postStateIdle := true,
                     proverHasWork := false }) ∧
      envW.currentEpoch ≤ fresh.publishEpoch :=
  (BuildNIPostChallenge_reuse_or_reset cfgW envW stW
      { publishEpoch := 5, sequence := 2, prevATXID := 3, positioningATX := 2,
        commitmentATX := none, initialPost := none } rfl rfl).2
    (by decide) rfl rfl rfl 2 (by decide) (by decide)
    (fun h => absurd h (by decide))

/-- C5: building a fresh challenge picks target epoch
`max(currentEpoch, lastAtxPublishEpoch)`, advances it by exactly one when
the poet round start for it is not strictly in the future, and the built
challenge's publish epoch is the chosen target plus one. -/
theorem BuildNIPostChallenge_target_epoch (cfg : Cfg) (env : Env) (st : St)
    (prev : LastAtx) (pos : Nat)
    (hsync : env.syncCtxDone = false) (hch : st.challenge = none)
    (hla : env.getLastAtx = .ok prev) (hwc : env.waitCtxDone = false)
    (hpos : getPositioningAtx cfg.goldenATXID env.atxCandidates env.verifyChainOk
      env.findCtxDone = .ok pos) :
    ∃ ch st', BuildNIPostChallenge cfg env st = (.ok ch, st') ∧
      (0 < poetRoundStart cfg env (max env.currentEpoch prev.publishEpoch) - env.now →
        ch.publishEpoch = max env.currentEpoch prev.publishEpoch + 1) ∧
      (poetRoundStart cfg env (max env.currentEpoch prev.publishEpoch) - env.now ≤ 0 →
        ch.publishEpoch = (max env.currentEpoch prev.publishEpoch + 1) + 1) := by
  have hnc : ∀ w : Int, (decide (0 < w) && env.waitCtxDone) = false := by
    intro w
    rw [hwc, Bool.and_false]
  unfold BuildNIPostChallenge
  simp only [hsync, Bool.false_eq_true, if_false, hch]
  rw [buildFresh_ok_regular cfg env st prev pos hla (hnc _) hpos hch]
  refine ⟨_, _, rfl, ?_, ?_⟩
  · intro h
    show nextTargetEpoch cfg env (max env.currentEpoch prev.publishEpoch) + 1 = _
    unfold nextTargetEpoch
    rw [if_neg (by omega)]
  · intro h
    show nextTargetEpoch cfg env (max env.currentEpoch prev.publishEpoch) + 1 = _
    unfold nextTargetEpoch
    rw [if_pos h]

/-- A concrete per-identity state with no persisted challenge. -/
def stFreshW : St :=
  { challenge := none, initialPost := none, postStateIdle := false,
    proverHasWork := false }

/-- C5 witness: target selection evaluated at epoch 7 with a last ATX from
epoch 5 (the round start lies in the future, so no advancement). -/
theorem BuildNIPostChallenge_target_epoch_witness :
    ∃ ch st', BuildNIPostChallenge cfgW envW stFreshW = (.ok ch, st') ∧
      (0 < poetRoundStart cfgW envW (max envW.currentEpoch 5) - envW.now →
        ch.publishEpoch = max envW.currentEpoch 5 + 1) ∧
      (poetRoundStart cfgW envW (max envW.currentEpoch 5) - envW.now ≤ 0 →
        ch.publishEpoch = (max envW.currentEpoch 5 + 1) + 1) :=
  BuildNIPostChallenge_target_epoch cfgW envW stFreshW
    { id := 3, publishEpoch := 5, sequence := 4 } 2 rfl rfl rfl rfl (by decide)

/-- C9: the pre-anchor wait deadline is `roundStart + jitter − gracePeriod`
with the jitter drawn from `[0, gracePeriod·1/100]`; the wait happens only
when that deadline is still in the future (otherwise the outcome ignores
the wait-cancellation signal), and a cancellation during a pending wait
aborts the build with no state change. -/
theorem buildNipostChallenge_wait_jitter (cfg : Cfg) (env : Env) (st : St)
    (prev : LastAtx) (pos : Nat)
    (hgp : 0 ≤ cfg.gracePeriod)
    (hla : env.getLastAtx = .ok prev) (hch : st.challenge = none)
    (hpos : getPositioningAtx cfg.goldenATXID env.atxCandidates env.verifyChainOk
      env.findCtxDone = .ok pos) :
    (∀ roundStart : Int, ∃ jitter : Int,
      buildNipostChallengeStartDeadline roundStart cfg.gracePeriod env.rand
        = roundStart + jitter - cfg.gracePeriod ∧
      0 ≤ jitter ∧ jitter ≤ cfg.gracePeriod * maxNipostChallengeBuildJitter / 100) ∧
    (buildNipostChallengeStartDeadline (poetRoundStart cfg env (nextTargetEpoch cfg env
        (max env.currentEpoch prev.publishEpoch))) cfg.gracePeriod env.rand - env.now ≤ 0 →
      buildFresh cfg { env with waitCtxDone := true } st
        = buildFresh cfg { env with waitCtxDone := false } st) ∧
    (0 < buildNipostChallengeStartDeadline (poetRoundStart cfg env (nextTargetEpoch cfg env
        (max env.currentEpoch prev.publishEpoch))) cfg.gracePeriod env.rand - env.now →
      env.waitCtxDone = true →
      buildFresh cfg env st = (.error .canceled, st)) := by
  have hhi : 0 ≤ cfg.gracePeriod * maxNipostChallengeBuildJitter / 100 := by
    unfold maxNipostChallengeBuildJitter
    omega
  refine ⟨?_, ?_, ?_⟩
  · intro roundStart
    refine ⟨randomDurationInRange 0 (cfg.gracePeriod * maxNipostChallengeBuildJitter / 100)
      env.rand, rfl, ?_, ?_⟩
    · unfold randomDurationInRange
      rw [if_neg (by omega)]
      have := Int.emod_nonneg env.rand
        (show cfg.gracePeriod * maxNipostChallengeBuildJitter / 100 - 0 + 1 ≠ 0 by omega)
      omega
    · unfold randomDurationInRange
      rw [if_neg (by omega)]
      have := Int.emod_lt_of_pos env.rand
        (show 0 < cfg.gracePeriod * maxNipostChallengeBuildJitter / 100 - 0 + 1 by omega)
      omega
  · intro h
    have hd : decide (0 < buildNipostChallengeStartDeadline
        (poetRoundStart cfg env (nextTargetEpoch cfg env
          (max env.currentEpoch prev.publishEpoch)))
        cfg.gracePeriod env.rand - env.now) = false := decide_eq_false (not_lt.mpr h)
    refine (buildFresh_ok_regular cfg { env with waitCtxDone := true } st prev pos hla ?_
        hpos hch).trans
      (buildFresh_ok_regular cfg { env with waitCtxDone := false } st prev pos hla ?_
        hpos hch).symm
    · show (decide (0 < buildNipostChallengeStartDeadline
        (poetRoundStart cfg env (nextTargetEpoch cfg env
          (max env.currentEpoch prev.publishEpoch)))
        cfg.gracePeriod env.rand - env.now) && true) = false
      rw [hd]
      rfl
    · show (decide (0 < buildNipostChallengeStartDeadline
        (poetRoundStart cfg env (nextTargetEpoch cfg env
          (max env.currentEpoch prev.publishEpoch)))
        cfg.gracePeriod env.rand - env.now) && false) = false
      rw [Bool.and_false]
  · intro h hwt
    unfold buildFresh
    rw [hla]
    have hd : decide (0 < buildNipostChallengeStartDeadline
        (poetRoundStart cfg env (nextTargetEpoch cfg env
          (max env.currentEpoch prev.publishEpoch)))
        cfg.gracePeriod env.rand - env.now) = true := decide_eq_true h
    simp only [hwt, hd, Bool.and_true, if_true]

/-- C9 witness: the jitter decomposition at the concrete configuration
(grace period 100, so the jitter interval is `[0, 1]`). -/
theorem buildNipostChallenge_wait_jitter_witness :
    ∃ jitter : Int,
      buildNipostChallengeStartDeadline 7005 cfgW.gracePeriod envW.rand
        = 7005 + jitter - cfgW.gracePeriod ∧
      0 ≤ jitter ∧ jitter ≤ cfgW.gracePeriod * maxNipostChallengeBuildJitter / 100 :=
  (buildNipostChallenge_wait_jitter cfgW envW stFreshW
    { id := 3, publishEpoch := 5, sequence := 4 } 2 (by decide) rfl rfl (by decide)).1 7005

/-- A concrete broadcast environment: attempt 0 fails, attempt 1 succeeds. -/
def bcEnvW : BCEnv :=
  { encode := fun _ => 3, publishOk := fun i => i == 1, ctxDoneAt := fun _ => false,
    resetStateOk := true, removeChallengeOk := true }

/-- A concrete built-and-signed ATX for the broadcast phase. -/
def atxW : ActivationTx :=
  { challenge := sampleChallenge, coinbase := 1, nipost := 7, numUnits := 2,
    vrfNonce := none, nodeID := none, smesherID := 4, signature := 4 }

/-- A concrete state entering the broadcast phase. -/
def stPubW : St :=
  { challenge := some sampleChallenge, initialPost := none, postStateIdle := false,
    proverHasWork := true }

/-- C4 witness: a run where the first broadcast fails and the second
succeeds — both payloads are the one serialization, and the success clears
the prover state and the persisted challenge. -/
theorem publishAtxPhase_retry_loop_witness :
    (∀ p ∈ [3, 3], p = bcEnvW.encode atxW) ∧
    ({ challenge := none, initialPost := none, postStateIdle := false,
       proverHasWork := false : St }
      = { stPubW with proverHasWork := false, challenge := none }) :=
  ⟨((publishAtxPhase_retry_loop bcEnvW stPubW atxW).1 3 (.ok ())
      { challenge := none, initialPost := none, postStateIdle := false,
        proverHasWork := false } [3, 3] rfl).1,
    (publishAtxPhase_retry_loop bcEnvW stPubW atxW).2.2.1 rfl rfl 3
      { challenge := none, initialPost := none, postStateIdle := false,
        proverHasWork := false } [3, 3] rfl⟩

/-- C7 witness: a concrete two-identity run where one reset fails. -/
theorem stopSmeshing_reset_behaviour_witness :
    stopSmeshing false true .nil [0, 1] (fun x => x != 0) (fun _ => true)
      = (.notStartedErr, []) ∧
    StopAction.resetAttempt 0 false
      ∈ (stopSmeshing true true .nil [0, 1] (fun x => x != 0) (fun _ => true)).2 := by
  have h := stopSmeshing_reset_behaviour true .nil [0, 1]
    (fun x => x != 0) (fun _ => true) (by decide)
  exact ⟨h.1, ((h.2.2 rfl).2 0).1 (by decide)⟩

end Spacemesh
